import Mathlib

/-!
Verification of the sqlfluff segment core against its specification.

The Python source under `src/sqlfluff/core/parser/segments/raw.py` is embedded
shallowly below: each Python class attribute table, constructor and method is
translated into a Lean definition of the same name.  Components whose source is
not part of this repository snapshot (the `BaseSegment` composite machinery,
the grammar combinators and the ephemeral segment) are modelled from the
specification document and from the behaviour pinned by the test files, and
are marked `Modelled from the spec:` in their doc comments.
-/

namespace SqlFluff

/-- Position marker, from `markers.py` (external to this snapshot, referenced by
`raw.py`): an immutable value holding a half-open source range, a half-open
templated range and a reference to the shared templated file.  Equality is
field equality. -/
structure PositionMarker where
  source_start : Nat
  source_end : Nat
  templated_start : Nat
  templated_end : Nat
  templated_file_id : Nat
deriving DecidableEq

/-- A source fix already baked into a raw segment's literal text, recording the
replacement text and the original source slice it replaced. -/
structure SourceFix where
  edit : String
  source_start : Nat
  source_end : Nat
deriving DecidableEq

/-- The concrete Python classes defined in `raw.py`.  The class is the part of
a segment's behaviour that Python dispatches on (class attribute tables and
the metaclass-collected `_class_types`). -/
inductive SegClass
  | raw
  | code
  | unlexable
  | comment
  | whitespace
  | newline
  | keyword
  | symbol
deriving DecidableEq

/-- The metaclass-collected `_class_types` of each class: the `type` class
attributes found along the Python MRO.  `CodeSegment` declares no `type` of its
own, so it contributes nothing beyond `RawSegment`'s.  (The collection itself
lives in `base.py`; the values are pinned by `raw.py`'s `type` attributes and
by the class-type assertions in the test files.) -/
def SegClass.classTypes : SegClass → List String
  | .raw => ["raw", "base"]
  | .code => ["raw", "base"]
  | .unlexable => ["unlexable", "raw", "base"]
  | .comment => ["comment", "raw", "base"]
  | .whitespace => ["whitespace", "raw", "base"]
  | .newline => ["newline", "raw", "base"]
  | .keyword => ["keyword", "raw", "base"]
  | .symbol => ["symbol", "raw", "base"]

/-- The `type` class attribute (most-derived declaration). -/
def SegClass.typeTag : SegClass → String
  | .raw => "raw"
  | .code => "raw"
  | .unlexable => "unlexable"
  | .comment => "comment"
  | .whitespace => "whitespace"
  | .newline => "newline"
  | .keyword => "keyword"
  | .symbol => "symbol"

/-- The `_default_raw` class attribute (raw.py lines 23, 244, 261). -/
def SegClass.defaultRaw : SegClass → String
  | .whitespace => " "
  | .newline => "\n"
  | _ => ""

/-- The `_is_code` class attribute. -/
def SegClass.isCodeFlag : SegClass → Bool
  | .comment => false
  | .whitespace => false
  | .newline => false
  | _ => true

/-- The `_is_comment` class attribute. -/
def SegClass.isCommentFlag : SegClass → Bool
  | .comment => true
  | _ => false

/-- The `_is_whitespace` class attribute (raw.py lines 20, 241, 258). -/
def SegClass.isWhitespaceFlag : SegClass → Bool
  | .whitespace => true
  | .newline => true
  | _ => false

/-- The instance state of a Python `RawSegment` after `__init__` (raw.py lines
25-65).  `uuid` is a process-unique identifier; we model identifiers as
naturals. -/
structure RawSegment where
  segClass : SegClass
  _raw : String
  pos_marker : Option PositionMarker
  _surrogate_type : Option String
  trim_start : Option (List String)
  trim_chars : Option (List String)
  _source_fixes : Option (List SourceFix)
  uuid : Nat
deriving DecidableEq

/-- `RawSegment.__init__` (raw.py lines 25-65): `raw` falls back to the class's
`_default_raw` only when it is `None` (line 41: "NB, raw *can* be an empty
string and be valid"); `uuid` falls back to a freshly generated identifier
(`uuid or uuid4()`, line 62), which we model by the explicit `freshUuid`
argument. -/
def RawSegment.make (cls : SegClass) (raw : Option String)
    (pos_marker : Option PositionMarker) (type : Option String)
    (trim_start trim_chars : Option (List String))
    (source_fixes : Option (List SourceFix)) (uuid : Option Nat)
    (freshUuid : Nat) : RawSegment :=
  { segClass := cls
    _raw :=
      match raw with
      | some r => r
      | none => cls.defaultRaw
    pos_marker := pos_marker
    _surrogate_type := type
    trim_start := trim_start
    trim_chars := trim_chars
    _source_fixes := source_fixes
    uuid :=
      match uuid with
      | some u => u
      | none => freshUuid }

/-- The `raw` property (raw.py lines 104-107). -/
def RawSegment.raw (s : RawSegment) : String := s._raw

/-- Python `str.upper()` restricted to its ASCII behaviour: uppercase every
character. -/
def strUpper (s : String) : String := String.mk (s.data.map Char.toUpper)

/-- The `raw_upper` property (raw.py lines 109-112, computed at init line 45). -/
def RawSegment.raw_upper (s : RawSegment) : String := strUpper s._raw

/-- The `is_code` property (raw.py lines 89-92). -/
def RawSegment.is_code (s : RawSegment) : Bool := s.segClass.isCodeFlag

/-- The `is_comment` property (raw.py lines 94-97). -/
def RawSegment.is_comment (s : RawSegment) : Bool := s.segClass.isCommentFlag

/-- The `is_whitespace` property (raw.py lines 99-102). -/
def RawSegment.is_whitespace (s : RawSegment) : Bool := s.segClass.isWhitespaceFlag

/-- The `source_fixes` property (raw.py lines 129-132): `self._source_fixes or []`. -/
def RawSegment.source_fixes (s : RawSegment) : List SourceFix :=
  match s._source_fixes with
  | some l => l
  | none => []

/-- The `class_types` property (raw.py lines 119-127): the surrogate type, when
truthy, unioned with the class-level types.  We keep the list form; the
surrogate is prepended. -/
def RawSegment.class_types (s : RawSegment) : List String :=
  (match s._surrogate_type with
    | some t => if t = "" then [] else [t]
    | none => []) ++ s.segClass.classTypes

/-- `get_type` (raw.py lines 140-142): `self._surrogate_type or self.type`,
where a Python empty string is falsy. -/
def RawSegment.get_type (s : RawSegment) : String :=
  match s._surrogate_type with
  | some t => if t = "" then s.segClass.typeTag else t
  | none => s.segClass.typeTag

/-- Modelled from the spec: `class_is_type` lives in `base.py` (not in this
snapshot); per the test file it holds iff the queried tags intersect the
metaclass-collected `_class_types`. -/
def SegClass.class_is_type (cls : SegClass) (tags : List String) : Bool :=
  tags.any (fun t => cls.classTypes.contains t)

/-- `is_type` (raw.py lines 144-148): true if the surrogate type is truthy and
among the queried tags, else defer to the class-level `class_is_type`. -/
def RawSegment.is_type (s : RawSegment) (tags : List String) : Bool :=
  (match s._surrogate_type with
    | some t => if t = "" then false else tags.contains t
    | none => false)
  || s.segClass.class_is_type tags

/-- One iteration bound of the Python loop `while raw_buff.startswith(seq):
raw_buff = raw_buff[len(seq):]` (raw.py lines 166-167).  The fuel argument is
only a termination device: `s.length` steps always suffice because each
iteration removes at least one character; with an empty `seq` the Python loop
would never terminate, so the guard leaves the buffer unchanged. -/
def stripStartRep (seq : List Char) : Nat → List Char → List Char
  | 0, s => s
  | fuel + 1, s =>
    if !seq.isEmpty && seq.isPrefixOf s then
      stripStartRep seq fuel (s.drop seq.length)
    else s

/-- One iteration bound of the Python loop `while raw_buff.endswith(seq):
raw_buff = raw_buff[:-len(seq)]` (raw.py lines 169-170), with the same fuel
convention as `stripStartRep`. -/
def stripEndRep (seq : List Char) : Nat → List Char → List Char
  | 0, s => s
  | fuel + 1, s =>
    if !seq.isEmpty && seq.isSuffixOf s then
      stripEndRep seq fuel (s.take (s.length - seq.length))
    else s

/-- The `trim_chars` phase of `raw_trimmed` (raw.py lines 163-171): for each
sequence in order, strip all leading copies, then all trailing copies. -/
def trimCharsApply (chars : List String) (raw : String) : String :=
  String.mk (chars.foldl
    (fun buf seq =>
      let sq := seq.data
      let b1 := stripStartRep sq (buf.length + 1) buf
      stripEndRep sq (b1.length + 1) b1)
    raw.data)

/-- `raw_trimmed` (raw.py lines 154-172).  The `trim_start` phase strips each
configured prefix at most once from the running buffer; if `trim_chars` is
truthy the buffer is then reset to the original raw (line 162) and only the
`trim_chars` phase determines the result.  Python truthiness makes an empty
tuple behave like an absent one. -/
def RawSegment.raw_trimmed (s : RawSegment) : String :=
  let raw_buff :=
    match s.trim_start with
    | some ts =>
      if ts.isEmpty then s.raw.data
      else ts.foldl
        (fun buf seq => if seq.data.isPrefixOf buf then buf.drop seq.length else buf)
        s.raw.data
    | none => s.raw.data
  match s.trim_chars with
  | some tc =>
    if tc.isEmpty then String.mk raw_buff
    else trimCharsApply tc s.raw
  | none => String.mk raw_buff

/-- Python `x or default` for an optional string argument: both `None` and the
empty string are falsy (used by `edit`, raw.py line 202). -/
def pyOrStr (o : Option String) (d : String) : String :=
  match o with
  | some x => if x = "" then d else x
  | none => d

/-- Python `x or default` for an optional list argument: both `None` and the
empty list are falsy (used by `edit`, raw.py line 207). -/
def pyOrFixes (o : Option (List SourceFix)) (d : List SourceFix) : List SourceFix :=
  match o with
  | some l => if l.isEmpty then d else l
  | none => d

/-- `edit` (raw.py lines 188-208): rebuild via the class constructor with
`raw=raw or self.raw`, the same position marker, surrogate type and trim
rules, `source_fixes=source_fixes or self.source_fixes`, and no `uuid`
argument, so that the constructor generates a fresh identifier (modelled by
`freshUuid`). -/
def RawSegment.edit (s : RawSegment) (raw : Option String)
    (source_fixes : Option (List SourceFix)) (freshUuid : Nat) : RawSegment :=
  RawSegment.make s.segClass (some (pyOrStr raw s.raw)) s.pos_marker
    s._surrogate_type s.trim_start s.trim_chars
    (some (pyOrFixes source_fixes s.source_fixes)) none freshUuid

/-- Modelled from the spec: the segment tree (spec §3).  A segment is either a
Raw leaf (embedded above from `raw.py`) or a composite node owning an ordered
list of children; the composite machinery (`base.py`) is not part of this
snapshot, so composites carry exactly what the spec gives them: a declared
type tag, a process-unique identifier, and children. -/
inductive Segment
  | raw (r : RawSegment)
  | node (typ : String) (uuid : Nat) (children : List Segment)

mutual

/-- Modelled from the spec: a composite's reconstructed raw text is the
concatenation, in child order, of its children's reconstructed raw text
(spec §4.3); a Raw leaf's is its literal text (raw.py lines 104-107). -/
def Segment.rawText : Segment → String
  | .raw r => r.raw
  | .node _ _ cs => rawTextList cs

/-- Concatenation of the reconstructed text of a list of segments, in order. -/
def rawTextList : List Segment → String
  | [] => ""
  | c :: cs => Segment.rawText c ++ rawTextList cs

end

mutual

/-- Modelled from the spec: `get_raw_segments` — the leaf (Raw) segments of the
subtree in document order; on a raw segment it returns the singleton list
(raw.py lines 150-152). -/
def Segment.get_raw_segments : Segment → List RawSegment
  | .raw r => [r]
  | .node _ _ cs => getRawSegmentsList cs

/-- The leaves of a list of segments, in document order. -/
def getRawSegmentsList : List Segment → List RawSegment
  | [] => []
  | c :: cs => Segment.get_raw_segments c ++ getRawSegmentsList cs

end

/-- Concatenation of the literal text of a list of raw segments, in order. -/
def concatRaws : List RawSegment → String
  | [] => ""
  | r :: rs => r.raw ++ concatRaws rs

/-- The children of a segment; a Raw leaf's "children" accessor always yields
the empty sequence (spec §3, raw.py line 51). -/
def Segment.children : Segment → List Segment
  | .raw _ => []
  | .node _ _ cs => cs

/-- The process-unique identifier of a segment. -/
def Segment.uuid : Segment → Nat
  | .raw r => r.uuid
  | .node _ u _ => u

/-- Segment content equality on raw leaves, ignoring identity: per the spec
(§3, §4.3) and the comparison tests, two raw segments compare equal iff they
are of the same class with equal literal text and equal position markers —
the uuid does not participate. -/
def rawContentEq (a b : RawSegment) : Bool :=
  decide (a.segClass = b.segClass) && decide (a.raw = b.raw)
    && decide (a.pos_marker = b.pos_marker)

mutual

/-- Modelled from the spec: segment equality (spec §4.3) — raw leaves compare
by content (class, literal text, position marker, not identity); composites
compare equal iff they have the same declared type and element-wise equal
child sequences. -/
def Segment.segEq : Segment → Segment → Bool
  | .raw a, .raw b => rawContentEq a b
  | .node t1 _ cs1, .node t2 _ cs2 => decide (t1 = t2) && segEqList cs1 cs2
  | .raw _, .node _ _ _ => false
  | .node _ _ _, .raw _ => false

/-- Element-wise segment equality of two child sequences. -/
def segEqList : List Segment → List Segment → Bool
  | [], [] => true
  | x :: xs, y :: ys => Segment.segEq x y && segEqList xs ys
  | [], _ :: _ => false
  | _ :: _, [] => false

end

/-- Whether a segment counts as code.  Raw leaves use their `_is_code` class
attribute (raw.py lines 89-92); for composites the test file notes that the
dummy composite segments report `is_code` as true. -/
def Segment.is_code : Segment → Bool
  | .raw r => r.is_code
  | .node _ _ _ => true

/-- The indices of the code children within a child list, in order. -/
def codeIdxs (cs : List Segment) : List Nat :=
  cs.enum.filterMap (fun p => if (Prod.snd p).is_code then some (Prod.fst p) else none)

/-- Modelled from the spec: one step of a path from a root to a descendant
(`PathStep` in `base.py`, pinned by the path tests): the segment at that
level, the target's child index, the number of children, and the indices of
the code children at that level. -/
structure PathStep where
  segment : Segment
  idx : Nat
  len : Nat
  code_idxs : List Nat

mutual

/-- Modelled from the spec: `path_to(root, target)` (spec §4.7, behaviour
pinned by the path tests): the empty path when the target is the root itself
(identity comparison, modelled by uuid), otherwise a depth-first search over
children, recording at each level the child index, the sibling count and the
code-child indices of that level. -/
def path_to (root target : Segment) : Option (List PathStep) :=
  if root.uuid = target.uuid then some []
  else
    match root with
    | .raw _ => none
    | .node t u cs =>
      pathToChildren (Segment.node t u cs) cs.length (codeIdxs cs) cs 0 target

/-- Depth-first search over the children at one level; `len` and `cidxs` are
the sibling count and code-child indices of the whole level, `i` the index of
the first child of `rem` within it. -/
def pathToChildren (parent : Segment) (len : Nat) (cidxs : List Nat)
    (rem : List Segment) (i : Nat) (target : Segment) : Option (List PathStep) :=
  match rem with
  | [] => none
  | c :: rest =>
    match path_to c target with
    | some steps => some (PathStep.mk parent i len cidxs :: steps)
    | none => pathToChildren parent len cidxs rest (i + 1) target

end

/-- The kind of a proposed lint fix (spec §3). -/
inductive EditType
  | create_before
  | create_after
  | replace
  | delete
deriving DecidableEq

/-- Modelled from the spec: a proposed lint fix — an edit kind, the anchor
segment it targets (keyed by identity), and the replacement segment list
(spec §3). -/
structure LintFix where
  edit_type : EditType
  anchor : RawSegment
  edit : List RawSegment
deriving DecidableEq

/-- The `LintFix.replace` constructor used by the anchor-resolver test. -/
def LintFix.mkReplace (anchor : RawSegment) (edit : List RawSegment) : LintFix :=
  { edit_type := .replace, anchor := anchor, edit := edit }

/-- Element-wise content equality of replacement segment lists. -/
def rawListContentEq : List RawSegment → List RawSegment → Bool
  | [], [] => true
  | x :: xs, y :: ys => rawContentEq x y && rawListContentEq xs ys
  | [], _ :: _ => false
  | _ :: _, [] => false

/-- Modelled from the spec: structural equality of fixes — same kind, same
anchor (content equality of segments, which ignores identity) and same
replacement content (spec §4.6 step 2). -/
def LintFix.fixEq (a b : LintFix) : Bool :=
  decide (a.edit_type = b.edit_type) && rawContentEq a.anchor b.anchor
    && rawListContentEq a.edit b.edit

/-- Modelled from the spec: per-anchor aggregate of the surviving fixes —
counts per kind after deduplication, the first-seen replace fix, and the
deduplicated fix list in first-seen order (spec §3, §4.6). -/
structure AnchorEditInfo where
  delete : Nat
  replace : Nat
  create_before : Nat
  create_after : Nat
  fixes : List LintFix
  _first_replace : Option LintFix
deriving DecidableEq

/-- The empty per-anchor aggregate. -/
def AnchorEditInfo.empty : AnchorEditInfo :=
  { delete := 0, replace := 0, create_before := 0, create_after := 0
    fixes := [], _first_replace := none }

/-- Modelled from the spec: add one fix to an anchor's aggregate — a fix
structurally equal to one already present is dropped (dedup preserving
first-seen order); otherwise it is appended, its kind's count incremented,
and the first replace fix recorded (spec §4.6 steps 2-3). -/
def AnchorEditInfo.add (info : AnchorEditInfo) (fix : LintFix) : AnchorEditInfo :=
  if info.fixes.any (fun f => LintFix.fixEq f fix) then info
  else
    let info1 := { info with fixes := info.fixes ++ [fix] }
    let info2 :=
      match fix.edit_type with
      | .delete => { info1 with delete := info1.delete + 1 }
      | .replace => { info1 with replace := info1.replace + 1 }
      | .create_before => { info1 with create_before := info1.create_before + 1 }
      | .create_after => { info1 with create_after := info1.create_after + 1 }
    match fix.edit_type, info2._first_replace with
    | .replace, none => { info2 with _first_replace := some fix }
    | _, _ => info2

/-- Insert a fix into the ordered per-anchor map, keyed by anchor uuid,
preserving first-seen anchor order. -/
def addToAnchorMap (acc : List (Nat × AnchorEditInfo)) (key : Nat)
    (fix : LintFix) : List (Nat × AnchorEditInfo) :=
  match acc with
  | [] => [(key, AnchorEditInfo.empty.add fix)]
  | (k, info) :: rest =>
    if k = key then (k, info.add fix) :: rest
    else (k, info) :: addToAnchorMap rest key fix

/-- Modelled from the spec: `compute_anchor_edit_info` (spec §4.6 steps 1-3,
pinned by the anchor-resolver test) — fold the proposed fixes, grouping by
anchor identity (uuid, not content) into an insertion-ordered map of
per-anchor aggregates. -/
def compute_anchor_edit_info (fixes : List LintFix) : List (Nat × AnchorEditInfo) :=
  fixes.foldl (fun acc fix => addToAnchorMap acc fix.anchor.uuid fix) []

/-- Modelled from the spec: a literal string matcher (`StringParser`): it
matches exactly one upcoming segment whose literal text equals the template
case-insensitively, wrapping it as a keyword-class segment carrying the
requested surrogate type and the same position (spec §4.4, keyword test). -/
structure StringParser where
  template : String
  targetType : Option String

/-- Modelled from the spec: an ephemeral segment — a composite variant that
additionally owns a deferred grammar and a diagnostic name (spec §3, §4.5). -/
structure EphemeralSegment where
  segments : List RawSegment
  pos_marker : Option PositionMarker
  parse_grammar : StringParser
  ephemeral_name : String

/-- Modelled from the spec: run a `StringParser` at the head of a segment
sequence; on success return the wrapped keyword segment and the unconsumed
remainder (spec §4.4). -/
def StringParser.matchRaw (p : StringParser) (segs : List RawSegment)
    (freshUuid : Nat) : Option (RawSegment × List RawSegment) :=
  match segs with
  | [] => none
  | s :: rest =>
    if s.raw_upper = strUpper p.template then
      some (RawSegment.make .keyword (some s.raw) s.pos_marker p.targetType
        none none none none freshUuid, rest)
    else none

/-- Modelled from the spec: an element of an ephemeral expansion result —
either an ordinary segment, or the explicit unparsable placeholder carrying
the children it covers and the stored diagnostic name, or (never produced) an
ephemeral segment (spec §4.5). -/
inductive ParsedElem
  | seg (r : RawSegment)
  | unparsable (children : List RawSegment) (expected : String)
  | ephemeral (e : EphemeralSegment)

/-- Whether an expansion element is still an ephemeral segment. -/
def ParsedElem.isEphemeral : ParsedElem → Bool
  | .ephemeral _ => true
  | _ => false

/-- Modelled from the spec: the diagnostic rendering of an expansion element;
for an unparsable placeholder it includes `Expected: 'name'` so the failure is
traceable to the grammar region that was attempted (spec §4.5, ephemeral
tests). -/
def ParsedElem.stringify : ParsedElem → String
  | .seg r => r.raw
  | .unparsable _ expected => "unparsable: !! " ++ ("Expected: '" ++ expected ++ "'")
  | .ephemeral e => "ephemeral: " ++ e.ephemeral_name

/-- Modelled from the spec: ephemeral expansion (spec §4.5) — run the stored
grammar against the node's own children as a fresh cursor; on a complete
match, replace the ephemeral node with the matched result (flattened, not
wrapped); otherwise replace it with an explicit unparsable placeholder
carrying the stored name.  Expansion is a total function: failure becomes a
typed placeholder, never a fault. -/
def EphemeralSegment.parse (e : EphemeralSegment) (freshUuid : Nat) : List ParsedElem :=
  match e.parse_grammar.matchRaw e.segments freshUuid with
  | some (k, rest) =>
    if rest.isEmpty then [ParsedElem.seg k]
    else [ParsedElem.unparsable e.segments e.ephemeral_name]
  | none => [ParsedElem.unparsable e.segments e.ephemeral_name]

/-- Modelled from the spec: a grammar matcher viewed at one cursor position —
it either fails, or reports how many input segments it consumes there
(spec §4.4). -/
def Matcher : Type := List RawSegment → Option Nat

/-- Modelled from the spec: the selection fold of ordered alternation
(`OneOf`, spec §4.4): try each option at the same starting cursor, keep the
option producing the longest match, and on a tie keep the earlier-declared
one.  Returns the declaration index and consumed length of the winner. -/
def oneOfGo (segs : List RawSegment) :
    List Matcher → Nat → Option (Nat × Nat) → Option (Nat × Nat)
  | [], _, best => best
  | m :: rest, i, best =>
    let best1 :=
      match m segs, best with
      | none, b => b
      | some l, none => some (i, l)
      | some l, some (bi, bl) => if bl < l then some (i, l) else some (bi, bl)
    oneOfGo segs rest (i + 1) best1

/-- Modelled from the spec: `OneOf` selection — the index and consumed length
of the longest-matching alternative at this cursor, ties broken by
declaration order (spec §4.4). -/
def oneOfPick (options : List Matcher) (segs : List RawSegment) : Option (Nat × Nat) :=
  oneOfGo segs options 0 none

/-- The anchor segment of the anchor-resolver test scenario: a raw code
segment `"foobar"` at source positions 0-6, uuid 0. -/
def c4seg : RawSegment :=
  RawSegment.make .raw (some ("foobar")) (some ⟨0, 6, 0, 6, 0⟩) none none none none
    (some 0) 0

/-- First proposed fix: replace the anchor with its edit to `"a"`. -/
def c4fixA1 : LintFix := LintFix.mkReplace c4seg [c4seg.edit (some ("a")) none 101]

/-- Second proposed fix: an independently proposed, textually identical
replace (the edited segment carries a different fresh uuid). -/
def c4fixA2 : LintFix := LintFix.mkReplace c4seg [c4seg.edit (some ("a")) none 102]

/-- Third proposed fix: a distinct replace to `"b"` on the same anchor. -/
def c4fixB : LintFix := LintFix.mkReplace c4seg [c4seg.edit (some ("b")) none 103]

/-- A second anchor whose content equals `c4seg` but whose identity differs
(uuid 7): used to check that grouping is by identity, not content. -/
def c4other : RawSegment :=
  RawSegment.make .raw (some ("foobar")) (some ⟨0, 6, 0, 6, 0⟩) none none none none
    (some 7) 7

/-- A replace fix anchored on the content-equal second anchor. -/
def c4fixOther : LintFix := LintFix.mkReplace c4other [c4other.edit (some ("a")) none 104]

/-- The first leaf of the path test tree: raw `"foobar"`, uuid 1. -/
def c5leaf0 : Segment :=
  Segment.raw (RawSegment.make .code (some ("foobar")) (some ⟨0, 6, 0, 6, 0⟩) none
    none none none (some 1) 1)

/-- The second leaf of the path test tree: raw `".barfoo"`, uuid 2. -/
def c5leaf1 : Segment :=
  Segment.raw (RawSegment.make .code (some (".barfoo")) (some ⟨6, 13, 6, 13, 0⟩) none
    none none none (some 2) 2)

/-- The middle composite of the path test tree, holding both leaves. -/
def c5mid : Segment := Segment.node ("dummy_aux") 10 [c5leaf0, c5leaf1]

/-- The root composite of the path test tree, holding only `c5mid`. -/
def c5root : Segment := Segment.node ("dummy") 11 [c5mid]

/-- The raw segment `"bar"` used by the ephemeral tests. -/
def c6bar : RawSegment :=
  RawSegment.make .raw (some ("bar")) (some ⟨0, 3, 0, 3, 0⟩) none none none none
    (some 21) 21

/-- The ephemeral segment of the unparsable test: its stored grammar expects a
keyword absent from its children; its diagnostic name is `"foo"`. -/
def c6ephFail : EphemeralSegment :=
  { segments := [c6bar]
    pos_marker := none
    parse_grammar := { template := "somethingwedonthave", targetType := none }
    ephemeral_name := "foo" }

/-- The ephemeral segment of the successful expansion test: its stored grammar
matches its single child `"bar"`. -/
def c6ephOk : EphemeralSegment :=
  { segments := [c6bar]
    pos_marker := none
    parse_grammar := { template := "bar", targetType := none }
    ephemeral_name := "foo" }

/-- Alternative `A` of the alternation scenario: matches exactly one segment
whenever the cursor has at least one. -/
def c8A : Matcher := fun segs => if 1 ≤ segs.length then some 1 else none

/-- Alternative `B` of the alternation scenario: matches three segments
whenever the cursor has at least three. -/
def c8B : Matcher := fun segs => if 3 ≤ segs.length then some 3 else none

/-- A three-segment cursor on which both alternatives match. -/
def c8segs : List RawSegment :=
  [RawSegment.make .raw (some ("x")) none none none none none (some 31) 31,
    RawSegment.make .raw (some ("y")) none none none none none (some 32) 32,
    RawSegment.make .raw (some ("z")) none none none none none (some 33) 33]

/-! ## Theorems -/

theorem concatRaws_append (a b : List RawSegment) :
    concatRaws (a ++ b) = concatRaws a ++ concatRaws b := by
  induction a with
  | nil => simp [concatRaws, String.empty_append]
  | cons r rs ih => simp [concatRaws, ih, String.append_assoc]

mutual

theorem rawText_eq_concat_leaves :
    ∀ t : Segment, Segment.rawText t = concatRaws (Segment.get_raw_segments t)
  | .raw r => by
    simp [Segment.rawText, Segment.get_raw_segments, concatRaws, String.append_empty]
  | .node _ _ cs => by
    simp only [Segment.rawText, Segment.get_raw_segments]
    exact rawTextList_eq_concat_leaves cs

theorem rawTextList_eq_concat_leaves :
    ∀ cs : List Segment, rawTextList cs = concatRaws (getRawSegmentsList cs)
  | [] => rfl
  | c :: cs => by
    simp only [rawTextList, getRawSegmentsList, concatRaws_append]
    rw [rawText_eq_concat_leaves c, rawTextList_eq_concat_leaves cs]

end

/-- C1: for every segment tree with no fixes applied, concatenating the
literal text of every leaf (Raw) segment in document order reproduces the
tree's reconstructed raw text exactly; and a composite's reconstructed raw
text is the concatenation, in child order, of its children's reconstructed
raw text. -/
theorem C1_losslessness :
    (∀ t : Segment, Segment.rawText t = concatRaws (Segment.get_raw_segments t))
    ∧ (∀ (ty : String) (u : Nat) (cs : List Segment),
        Segment.rawText (Segment.node ty u cs) = rawTextList cs)
    ∧ (∀ (c : Segment) (cs : List Segment),
        rawTextList (c :: cs) = Segment.rawText c ++ rawTextList cs) :=
  ⟨rawText_eq_concat_leaves, fun _ _ _ => rfl, fun _ _ => rfl⟩

/-- C10: a construction argument `raw=None` falls back to the class's
`_default_raw` (`""` for RawSegment, `" "` for WhitespaceSegment, `"\n"` for
NewlineSegment), while `raw=""` preserves the empty string, for every class. -/
theorem C10_default_raw :
    (∀ (pm : Option PositionMarker) (ty : Option String)
        (ts tc : Option (List String)) (sf : Option (List SourceFix))
        (u : Option Nat) (fresh : Nat),
      (RawSegment.make .raw none pm ty ts tc sf u fresh).raw = ""
      ∧ (RawSegment.make .whitespace none pm ty ts tc sf u fresh).raw = " "
      ∧ (RawSegment.make .newline none pm ty ts tc sf u fresh).raw = "\n")
    ∧ (∀ (cls : SegClass) (pm : Option PositionMarker) (ty : Option String)
        (ts tc : Option (List String)) (sf : Option (List SourceFix))
        (u : Option Nat) (fresh : Nat),
      (RawSegment.make cls none pm ty ts tc sf u fresh).raw = cls.defaultRaw
      ∧ (RawSegment.make cls (some ("")) pm ty ts tc sf u fresh).raw = "") :=
  ⟨fun _ _ _ _ _ _ _ => ⟨rfl, rfl, rfl⟩, fun _ _ _ _ _ _ _ _ => ⟨rfl, rfl⟩⟩

/-- C9 counterexample: the claim quantifies over every NewlineSegment, but a
NewlineSegment constructed with the surrogate type `"whitespace"` (the `type`
argument of `__init__`) answers `is_type("whitespace")` with True, and its
`class_types` include `"whitespace"`. -/
theorem C9_counterexample :
    (RawSegment.make .newline none none (some ("whitespace")) none none none none 7).is_type
        ["whitespace"] = true
    ∧ "whitespace" ∈ (RawSegment.make .newline none none (some ("whitespace")) none none
        none none 7).class_types := by
  constructor
  · rfl
  · simp [RawSegment.make, RawSegment.class_types, SegClass.classTypes]

/-- C9 (amended): for every NewlineSegment constructed without a surrogate
type override, `is_whitespace` is True yet `is_type("whitespace")` is False —
its class types are exactly `["newline", "raw", "base"]` — while
`is_type("newline")` and `is_type("whitespace", "newline")` are True. -/
theorem C9_newline_type_flags (raw : Option String) (pm : Option PositionMarker)
    (ts tc : Option (List String)) (sf : Option (List SourceFix))
    (u : Option Nat) (fresh : Nat) :
    (RawSegment.make .newline raw pm none ts tc sf u fresh).is_whitespace = true
    ∧ (RawSegment.make .newline raw pm none ts tc sf u fresh).is_type ["whitespace"] = false
    ∧ (RawSegment.make .newline raw pm none ts tc sf u fresh).class_types
        = ["newline", "raw", "base"]
    ∧ (RawSegment.make .newline raw pm none ts tc sf u fresh).is_type ["newline"] = true
    ∧ (RawSegment.make .newline raw pm none ts tc sf u fresh).is_type
        ["whitespace", "newline"] = true :=
  ⟨rfl, rfl, rfl, rfl, rfl⟩

/-- C2 counterexample: `edit` computes `raw=raw or self.raw` and
`source_fixes=source_fixes or self.source_fixes` with Python `or`, so an
empty-string new text and an empty source-fix list are discarded in favour of
the original values: for a segment with text `"q"` and one source fix,
`edit("", [])` returns a segment whose raw is not `""` and whose source-fix
list is not `[]`. -/
theorem C2_counterexample :
    ((RawSegment.make .raw (some ("q")) (some ⟨0, 1, 0, 1, 0⟩) none none none
        (some [⟨"z", 0, 1⟩]) (some 0) 0).edit (some ("")) (some []) 5).raw ≠ ""
    ∧ ((RawSegment.make .raw (some ("q")) (some ⟨0, 1, 0, 1, 0⟩) none none none
        (some [⟨"z", 0, 1⟩]) (some 0) 0).edit (some ("")) (some []) 5).source_fixes
      ≠ [] := by
  constructor
  · decide
  · decide

/-- C2 (amended): `s.edit(x, f)` returns a new Raw Segment whose uuid is the
freshly generated one (distinct from `s.uuid` by the identifier-uniqueness
contract), whose raw text equals `x` when `x` is non-empty (an empty `x` is
falsy in Python and falls back to `s`'s raw), whose source-fix list equals `f`
when `f` is non-empty (an empty `f` falls back to `s`'s source fixes), and
whose position marker, surrogate type, trim rules and class equal `s`'s; `s`
itself is unchanged (the embedding is pure and `edit` constructs a new
value). -/
theorem C2_edit_fresh_identity (s : RawSegment) (x : String) (f : List SourceFix)
    (fresh : Nat) (h : fresh ≠ s.uuid) :
    (s.edit (some x) (some f) fresh).uuid = fresh
    ∧ (s.edit (some x) (some f) fresh).uuid ≠ s.uuid
    ∧ (x ≠ "" → (s.edit (some x) (some f) fresh).raw = x)
    ∧ (x = "" → (s.edit (some x) (some f) fresh).raw = s.raw)
    ∧ (f ≠ [] → (s.edit (some x) (some f) fresh).source_fixes = f)
    ∧ (f = [] → (s.edit (some x) (some f) fresh).source_fixes = s.source_fixes)
    ∧ (s.edit (some x) (some f) fresh).pos_marker = s.pos_marker
    ∧ (s.edit (some x) (some f) fresh)._surrogate_type = s._surrogate_type
    ∧ (s.edit (some x) (some f) fresh).trim_start = s.trim_start
    ∧ (s.edit (some x) (some f) fresh).trim_chars = s.trim_chars
    ∧ (s.edit (some x) (some f) fresh).segClass = s.segClass := by
  refine ⟨rfl, h, ?_, ?_, ?_, ?_, rfl, rfl, rfl, rfl, rfl⟩
  · intro hx
    show (if x = "" then s.raw else x) = x
    rw [if_neg hx]
  · intro hx
    subst hx
    rfl
  · intro hf
    cases f with
    | nil => exact absurd rfl hf
    | cons a l => rfl
  · intro hf
    subst hf
    rfl

/-- C2 witness: the amended edit contract applied at a concrete segment with
uuid 0, new text `"x"` and a one-element source-fix list. -/
theorem C2_edit_fresh_identity_witness :
    (5 ≠ (RawSegment.make .raw (some ("q")) none none none none none (some 0) 0).uuid)
    ∧ ("x" : String) ≠ ""
    ∧ ((RawSegment.make .raw (some ("q")) none none none none none
          (some 0) 0).edit (some ("x")) (some [⟨"z", 2, 3⟩]) 5).raw = "x"
    ∧ ((RawSegment.make .raw (some ("q")) none none none none none
          (some 0) 0).edit (some ("x")) (some [⟨"z", 2, 3⟩]) 5).uuid ≠
        (RawSegment.make .raw (some ("q")) none none none none none (some 0) 0).uuid :=
  ⟨by decide, by decide,
    (C2_edit_fresh_identity
      (RawSegment.make .raw (some ("q")) none none none none none (some 0) 0)
      "x" [⟨"z", 2, 3⟩] 5 (by decide)).2.2.1 (by decide),
    (C2_edit_fresh_identity
      (RawSegment.make .raw (some ("q")) none none none none none (some 0) 0)
      "x" [⟨"z", 2, 3⟩] 5 (by decide)).2.1⟩

/-- C3: for every Raw Segment with both `trim_start` and `trim_chars` set (in
the code's sense: present and non-empty, since Python truthiness skips an
empty tuple), `raw_trimmed()` equals the result of applying only the
`trim_chars` semantics — each configured sequence repeatedly stripped from
the start and from the end of the original raw text (raw.py line 162 resets
the buffer to `self.raw`) — so the `trim_start`-only result is fully
overridden: the result coincides with `raw_trimmed` of the same segment with
`trim_start` removed.  The function is pure, so the segment is never
mutated. -/
theorem C3_trim_chars_precedence (s : RawSegment) (ts tc : List String)
    (_hts : s.trim_start = some ts) (_htsne : ts ≠ [])
    (htc : s.trim_chars = some tc) (htcne : tc ≠ []) :
    s.raw_trimmed = trimCharsApply tc s.raw
    ∧ s.raw_trimmed = RawSegment.raw_trimmed { s with trim_start := none } := by
  obtain ⟨a, l, rfl⟩ : ∃ a l, tc = a :: l := by
    cases tc with
    | nil => exact absurd rfl htcne
    | cons a l => exact ⟨a, l, rfl⟩
  have h1 : s.raw_trimmed = trimCharsApply (a :: l) s.raw := by
    simp [RawSegment.raw_trimmed, htc]
  have h2 : RawSegment.raw_trimmed { s with trim_start := none }
      = trimCharsApply (a :: l) s.raw := by
    simp [RawSegment.raw_trimmed, htc, RawSegment.raw]
  exact ⟨h1, h1.trans h2.symm⟩

/-- C3 witness: the precedence at a concrete quoted-identifier segment with
both trim rules set, and at the same segment with empty raw text. -/
theorem C3_trim_chars_precedence_witness :
    ((RawSegment.make .code (some ("''x''")) none none (some ["'"]) (some ["''"])
        none none 0).trim_start = some ["'"]
      ∧ (RawSegment.make .code (some ("''x''")) none none (some ["'"]) (some ["''"])
        none none 0).raw_trimmed
          = trimCharsApply ["''"]
            (RawSegment.make .code (some ("''x''")) none none (some ["'"]) (some ["''"])
              none none 0).raw)
    ∧ ((RawSegment.make .code (some ("")) none none (some ["'"]) (some ["''"])
        none none 0).raw_trimmed
          = trimCharsApply ["''"]
            (RawSegment.make .code (some ("")) none none (some ["'"]) (some ["''"])
              none none 0).raw) :=
  ⟨⟨rfl,
    (C3_trim_chars_precedence
      (RawSegment.make .code (some ("''x''")) none none (some ["'"]) (some ["''"])
        none none 0)
      ["'"] ["''"] rfl (by decide) rfl (by decide)).1⟩,
    (C3_trim_chars_precedence
      (RawSegment.make .code (some ("")) none none (some ["'"]) (some ["''"])
        none none 0)
      ["'"] ["''"] rfl (by decide) rfl (by decide)).1⟩

/-- C7: segment equality is independent of identity — two raw segments
constructed from the same class, text and position marker compare equal even
when their uuids (and baked-in source fixes) differ; and two composites
compare equal iff they have the same declared type and element-wise equal
child sequences, so composites of different declared types over equal
children compare unequal. -/
theorem C7_equality_independent_of_identity :
    (∀ (cls : SegClass) (x : String) (pm : Option PositionMarker)
        (ty : Option String) (ts tc : Option (List String))
        (sf1 sf2 : Option (List SourceFix)) (u1 u2 : Nat),
      u1 ≠ u2 →
      Segment.segEq
        (Segment.raw (RawSegment.make cls (some x) pm ty ts tc sf1 none u1))
        (Segment.raw (RawSegment.make cls (some x) pm ty ts tc sf2 none u2)) = true)
    ∧ (∀ (t1 t2 : String) (u1 u2 : Nat) (cs1 cs2 : List Segment),
      Segment.segEq (Segment.node t1 u1 cs1) (Segment.node t2 u2 cs2) = true
        ↔ (t1 = t2 ∧ segEqList cs1 cs2 = true))
    ∧ (∀ (t1 t2 : String) (u1 u2 : Nat) (cs : List Segment),
      t1 ≠ t2 →
      Segment.segEq (Segment.node t1 u1 cs) (Segment.node t2 u2 cs) = false) := by
  refine ⟨?_, ?_, ?_⟩
  · intro cls x pm ty ts tc sf1 sf2 u1 u2 _h
    simp [Segment.segEq, rawContentEq, RawSegment.make, RawSegment.raw]
  · intro t1 t2 u1 u2 cs1 cs2
    simp [Segment.segEq, Bool.and_eq_true, decide_eq_true_eq]
  · intro t1 t2 u1 u2 cs h
    simp [Segment.segEq, h]

/-- C7 witness: the comparison-test instances — two independently constructed
`"foobar"` raw segments with uuids 1 and 2 compare equal; composites of types
`"dummy"` and `"dummy_aux"` over equal children compare unequal. -/
theorem C7_equality_independent_of_identity_witness :
    ((1 : Nat) ≠ 2)
    ∧ Segment.segEq
        (Segment.raw (RawSegment.make .raw (some ("foobar")) (some ⟨0, 6, 0, 6, 0⟩)
          none none none none none 1))
        (Segment.raw (RawSegment.make .raw (some ("foobar")) (some ⟨0, 6, 0, 6, 0⟩)
          none none none none none 2)) = true
    ∧ ("dummy" : String) ≠ "dummy_aux"
    ∧ Segment.segEq
        (Segment.node ("dummy") 3
          [Segment.raw (RawSegment.make .raw (some ("foobar")) (some ⟨0, 6, 0, 6, 0⟩)
            none none none none none 1)])
        (Segment.node ("dummy_aux") 4
          [Segment.raw (RawSegment.make .raw (some ("foobar")) (some ⟨0, 6, 0, 6, 0⟩)
            none none none none none 1)]) = false :=
  ⟨by decide, C7_equality_independent_of_identity.1 .raw ("foobar") (some ⟨0, 6, 0, 6, 0⟩)
      none none none none none 1 2 (by decide),
    by decide, C7_equality_independent_of_identity.2.2 ("dummy") ("dummy_aux") 3 4
      [Segment.raw (RawSegment.make .raw (some ("foobar")) (some ⟨0, 6, 0, 6, 0⟩)
        none none none none none 1)] (by decide)⟩

/-- C4: the anchor-edit-info resolver groups the three proposed replace fixes
(two textually identical, one distinct) under the single anchor uuid; the
duplicate is dropped preserving first-seen order, so the anchor's aggregate
records replace-count 2, the surviving fix list `[A1, B]` of length 2, and
the first-seen replace `A1` — and grouping is by anchor uuid, not content: a
content-equal anchor with a different uuid forms its own group. -/
theorem C4_anchor_edit_info_dedup :
    compute_anchor_edit_info [c4fixA1, c4fixA2, c4fixB]
      = [(c4seg.uuid,
          { delete := 0, replace := 2, create_before := 0, create_after := 0
            fixes := [c4fixA1, c4fixB], _first_replace := some c4fixA1 })]
    ∧ (compute_anchor_edit_info [c4fixA1, c4fixA2, c4fixB]).map Prod.fst = [c4seg.uuid]
    ∧ rawContentEq c4seg c4other = true
    ∧ (compute_anchor_edit_info [c4fixA1, c4fixOther]).map Prod.fst
      = [c4seg.uuid, c4other.uuid] := by
  refine ⟨by decide, by decide, by decide, by decide⟩

/-- C5 counterexample: the claim reads the fourth component of a path step as
"the cumulative index path from the original root", which for the tree
`root → mid → (leaf0, leaf1)` would make `path_to(root, leaf0)` end in the
step `(mid, 0, 2, (0, 0))`; the code (pinned by its path tests) records the
indices of the code children at that level instead, so the actual final step
is `(mid, 0, 2, (0, 1))`. -/
theorem C5_counterexample :
    path_to c5root c5leaf0
      = some [PathStep.mk c5root 0 1 [0], PathStep.mk c5mid 0 2 [0, 1]]
    ∧ path_to c5root c5leaf0
      ≠ some [PathStep.mk c5root 0 1 [0], PathStep.mk c5mid 0 2 [0, 0]] := by
  refine ⟨rfl, ?_⟩
  intro h
  have h2 := congrArg (Option.map (List.map PathStep.code_idxs)) h
  exact absurd h2 (by decide)

/-- C5 (amended): `path_to(root, target)` returns the ordered steps from the
root down to the target, each recording the composite at that level, the
target's child index, the sibling count, and the indices of the code children
at that level (not a cumulative index path); `path_to(root, root)` is the
empty list, and for the tree `root → mid → (leaf0, leaf1)` the claimed
concrete value for `leaf1` — `[(root, 0, 1, (0,)), (mid, 1, 2, (0, 1))]` —
does hold. -/
theorem C5_path_to_steps :
    (∀ root : Segment, path_to root root = some [])
    ∧ path_to c5root c5leaf1
      = some [PathStep.mk c5root 0 1 [0], PathStep.mk c5mid 1 2 [0, 1]]
    ∧ path_to c5root c5leaf0
      = some [PathStep.mk c5root 0 1 [0], PathStep.mk c5mid 0 2 [0, 1]]
    ∧ path_to c5root c5mid = some [PathStep.mk c5root 0 1 [0]] := by
  refine ⟨?_, rfl, rfl, rfl⟩
  intro root
  unfold path_to
  rw [if_pos rfl]

/-- C6: ephemeral expansion never returns an ephemeral segment — on a match
of the stored grammar the node is replaced by the matched result, and when
the stored grammar cannot match, by an unparsable placeholder whose
diagnostic text contains `Expected: 'name'` for the stored ephemeral name;
expansion is a total function, so it never raises an uncaught fault. -/
theorem C6_ephemeral_expansion (e : EphemeralSegment) (fresh : Nat) :
    (∀ x ∈ e.parse fresh, x.isEphemeral = false)
    ∧ (e.parse_grammar.matchRaw e.segments fresh = none →
        e.parse fresh = [ParsedElem.unparsable e.segments e.ephemeral_name]
        ∧ ∃ pre post,
          ParsedElem.stringify (ParsedElem.unparsable e.segments e.ephemeral_name)
            = pre ++ ("Expected: '" ++ e.ephemeral_name ++ "'") ++ post) := by
  constructor
  · intro x hx
    unfold EphemeralSegment.parse at hx
    cases hm : e.parse_grammar.matchRaw e.segments fresh with
    | none =>
      rw [hm] at hx
      simp only [List.mem_singleton] at hx
      subst hx
      rfl
    | some pr =>
      obtain ⟨k, rest⟩ := pr
      rw [hm] at hx
      by_cases hr : rest.isEmpty
      · simp [hr] at hx
        subst hx
        rfl
      · simp [hr] at hx
        subst hx
        rfl
  · intro hnone
    refine ⟨by simp [EphemeralSegment.parse, hnone], "unparsable: !! ", "", ?_⟩
    rw [String.append_empty]
    rfl

/-- C6 witness: the two ephemeral-test instances — the failing grammar
(template absent from the children) produces the unparsable placeholder whose
diagnostic names `'foo'`, and the matching grammar produces no ephemeral
element. -/
theorem C6_ephemeral_expansion_witness :
    (c6ephFail.parse_grammar.matchRaw c6ephFail.segments 99 = none)
    ∧ (c6ephFail.parse 99
        = [ParsedElem.unparsable c6ephFail.segments c6ephFail.ephemeral_name]
      ∧ ∃ pre post,
          ParsedElem.stringify
              (ParsedElem.unparsable c6ephFail.segments c6ephFail.ephemeral_name)
            = pre ++ ("Expected: '" ++ c6ephFail.ephemeral_name ++ "'") ++ post)
    ∧ (∀ x ∈ c6ephOk.parse 99, x.isEphemeral = false) :=
  ⟨by decide,
    (C6_ephemeral_expansion c6ephFail 99).2 (by decide),
    (C6_ephemeral_expansion c6ephOk 99).1⟩

theorem oneOfGo_bounds (segs : List RawSegment) :
    ∀ (opts : List Matcher) (i : Nat) (best : Option (Nat × Nat)) (ri rl : Nat),
      oneOfGo segs opts i best = some (ri, rl) →
      (∀ b1 b2, best = some (b1, b2) → b2 ≤ rl)
      ∧ (∀ j m lj, opts.get? j = some m → m segs = some lj → lj ≤ rl) := by
  intro opts
  induction opts with
  | nil =>
    intro i best ri rl h
    simp only [oneOfGo] at h
    constructor
    · intro b1 b2 hb
      rw [hb] at h
      cases h
      exact Nat.le_refl rl
    · intro j m lj hj
      simp at hj
  | cons m rest ih =>
    intro i best ri rl h
    simp only [oneOfGo] at h
    cases hm : m segs with
    | none =>
      rw [hm] at h
      have hb := (ih (i + 1) best ri rl h).1
      constructor
      · exact hb
      · intro j mj lj hj hmj
        cases j with
        | zero =>
          simp only [List.get?] at hj
          cases hj
          rw [hm] at hmj
          cases hmj
        | succ j =>
          exact (ih (i + 1) best ri rl h).2 j mj lj hj hmj
    | some l =>
      rw [hm] at h
      cases best with
      | none =>
        have hb := (ih (i + 1) (some (i, l)) ri rl h).1
        constructor
        · intro b1 b2 hb2
          cases hb2
        · intro j mj lj hj hmj
          cases j with
          | zero =>
            simp only [List.get?] at hj
            cases hj
            rw [hm] at hmj
            cases hmj
            exact hb i l rfl
          | succ j =>
            exact (ih (i + 1) (some (i, l)) ri rl h).2 j mj lj hj hmj
      | some b =>
        obtain ⟨bi, bl⟩ := b
        by_cases hlt : bl < l
        · simp only [hlt, if_true] at h
          have hb := (ih (i + 1) (some (i, l)) ri rl h).1
          constructor
          · intro b1 b2 hb2
            cases hb2
            exact Nat.le_trans (Nat.le_of_lt hlt) (hb i l rfl)
          · intro j mj lj hj hmj
            cases j with
            | zero =>
              simp only [List.get?] at hj
              cases hj
              rw [hm] at hmj
              cases hmj
              exact hb i l rfl
            | succ j =>
              exact (ih (i + 1) (some (i, l)) ri rl h).2 j mj lj hj hmj
        · simp only [hlt, if_false] at h
          have hb := (ih (i + 1) (some (bi, bl)) ri rl h).1
          constructor
          · intro b1 b2 hb2
            cases hb2
            exact hb bi bl rfl
          · intro j mj lj hj hmj
            cases j with
            | zero =>
              simp only [List.get?] at hj
              cases hj
              rw [hm] at hmj
              cases hmj
              exact Nat.le_trans (Nat.le_of_not_lt hlt) (hb bi bl rfl)
            | succ j =>
              exact (ih (i + 1) (some (bi, bl)) ri rl h).2 j mj lj hj hmj

/-- C8: `OneOf` selection is longest-match-first — whenever the alternation
picks a winner, every matching alternative's consumed length is at most the
winner's (length, not declaration order, is the primary key); declaration
order only breaks exact ties; and in particular, for alternatives `A`
matching 1 segment and `B` matching 3 segments at the same cursor,
`OneOf(A, B)` selects `B`. -/
theorem C8_oneof_longest_match :
    (∀ (options : List Matcher) (segs : List RawSegment) (ri rl : Nat),
      oneOfPick options segs = some (ri, rl) →
      ∀ j m lj, options.get? j = some m → m segs = some lj → lj ≤ rl)
    ∧ (∀ (A B : Matcher) (segs : List RawSegment) (a b : Nat),
      A segs = some a → B segs = some b → a < b →
      oneOfPick [A, B] segs = some (1, b))
    ∧ (∀ (A B : Matcher) (segs : List RawSegment) (a : Nat),
      A segs = some a → B segs = some a →
      oneOfPick [A, B] segs = some (0, a)) := by
  refine ⟨?_, ?_, ?_⟩
  · intro options segs ri rl h j m lj hj hm
    exact (oneOfGo_bounds segs options 0 none ri rl h).2 j m lj hj hm
  · intro A B segs a b hA hB hab
    simp [oneOfPick, oneOfGo, hA, hB, hab]
  · intro A B segs a hA hB
    simp [oneOfPick, oneOfGo, hA, hB, Nat.lt_irrefl]

/-- C8 witness: at a three-segment cursor where `A` consumes 1 and `B`
consumes 3, the alternation selects `B` (declaration index 1, length 3). -/
theorem C8_oneof_longest_match_witness :
    c8A c8segs = some 1 ∧ c8B c8segs = some 3
    ∧ oneOfPick [c8A, c8B] c8segs = some (1, 3) :=
  ⟨by decide, by decide,
    C8_oneof_longest_match.2.1 c8A c8B c8segs 1 3 (by decide) (by decide) (by decide)⟩

end SqlFluff
